import Mathlib

/-!
Verification of the moderation-decision execution engine
(`src/olympia/abuse/utils.py`): the `CinderAction` class hierarchy, its
per-variant `process_action` state transitions, constructor target-kind
validation, the owner/reporter notifier, and the escalation queue flagger.

The embedding translates the Python source into pure Lean functions.
Django model state is made explicit: each target kind is a structure whose
status flags the actions read and toggle; `log_create` is modelled as both
returning an audit entry and appending it to an explicit list of logged
entries.  Collaborators that live outside the translated file
(`force_disable`, `ban_and_disable_related_content`, `can_be_appealed`,
`set_needs_human_review_on_latest_versions`, waffle switches, URL
reversing) are modelled from the specification and marked as such.
-/

/-- `amo.STATUS_APPROVED`.  Modelled from the spec: the "enabled" status of a
content item (the status constant lives in the `amo` constants module, outside
the translated file). -/
def STATUS_APPROVED : Nat := 4

/-- `amo.STATUS_DISABLED`.  Modelled from the spec: the "force-disabled" status
of a content item. -/
def STATUS_DISABLED : Nat := 5

/-- `NeedsHumanReview.REASON_CINDER_ESCALATION`.  Modelled from the spec: the
reason code used by the escalation queue flagger (constant of the review-queue
collaborator, outside the translated file). -/
def REASON_CINDER_ESCALATION : Nat := 2

/-- Modelled from the spec: the display text of the escalation reason code,
used to annotate the combined audit entry. -/
def REASON_CINDER_ESCALATION_DISPLAY : String := "Cinder escalation"

/-- A registered user (`UserProfile`): carries the banned flag toggled by
`CinderActionBanUser`, the contact email used by the notifier, and a
spec-modelled flag recording the "disable related content" cascade of
`ban_and_disable_related_content`. -/
structure UserProfile where
  pk : Nat
  name : String
  email : String
  banned : Bool
  related_content_disabled : Bool
deriving DecidableEq, Repr

/-- One version of a content item (`versions.Version`): identity plus the
version string that abuse reports name. -/
structure Version where
  id : Nat
  version : String
deriving DecidableEq, Repr

/-- A human-review flag row (`NeedsHumanReview`): belongs to one version,
carries a reason code and an active flag. -/
structure NeedsHumanReview where
  version_id : Nat
  reason : Nat
  is_active : Bool
deriving DecidableEq, Repr

/-- A content item (`Addon`): status flag, authors, full (unfiltered) version
set, the id(s) of its current latest version(s), its human-review flag rows,
and the current version used for activity-mail threading. -/
structure Addon where
  name : String
  status : Nat
  authors : List UserProfile
  versions : List Version
  latest_version_ids : List Nat
  nhr_flags : List NeedsHumanReview
  current_version_id : Option Nat
deriving DecidableEq, Repr

/-- A `Collection`: soft-delete flag and single author. -/
structure Collection where
  name : String
  author : UserProfile
  deleted : Bool
deriving DecidableEq, Repr

/-- A `Rating` (review): soft-delete flag, its author, and the name of the
add-on it reviews (used by `get_target_name`). -/
structure Rating where
  body : String
  addon_name : String
  user : UserProfile
  deleted : Bool
deriving DecidableEq, Repr

/-- The closed polymorphic target type: the four entity kinds a decision can
act upon. -/
inductive Target where
  | account : UserProfile → Target
  | contentItem : Addon → Target
  | collection : Collection → Target
  | review : Rating → Target
deriving DecidableEq, Repr

/-- The target kinds, used for `valid_targets` membership (the embedding of
the source's `isinstance(self.target, self.valid_targets)` check). -/
inductive TargetKind where
  | account | contentItem | collection | review
deriving DecidableEq, Repr

def Target.kind : Target → TargetKind
  | .account _ => .account
  | .contentItem _ => .contentItem
  | .collection _ => .collection
  | .review _ => .review

/-- Audit-log action codes used by the translated code (`amo.LOG.*`). -/
inductive LogAction where
  | FORCE_DISABLE
  | COLLECTION_DELETED
  | COLLECTION_UNDELETED
  | NEEDS_HUMAN_REVIEW_CINDER
deriving DecidableEq, Repr

/-- An audit-log entry as produced by `log_create` / `activity.log_create`:
action code, affected version ids (escalation path only) and optional
details text. -/
structure ActivityLogEntry where
  action : LogAction
  version_ids : List Nat
  details : Option String
deriving DecidableEq, Repr

/-- Result of one `process_action` run on a target of type `α`: the updated
target state, the value returned to the caller (an optional audit entry), and
the audit entries written to the activity log during the run (`log_create`
both records and returns its entry). -/
structure ProcessResult (α : Type) where
  target : α
  returned : Option ActivityLogEntry
  logged : List ActivityLogEntry
deriving DecidableEq, Repr

/-- `CinderActionBanUser.process_action`: guarded on `target.banned`; the ban
itself (`ban_and_disable_related_content`, outside the translated file) is
modelled from the spec as setting the banned flag and disabling related
content.  Returns `None` on both paths, as in the source. -/
def ban_user_process_action (u : UserProfile) : ProcessResult UserProfile :=
  if !u.banned then
    ⟨{ u with banned := true, related_content_disabled := true }, none, []⟩
  else ⟨u, none, []⟩

/-- `CinderActionDisableAddon.process_action`: if the add-on is not already
`STATUS_DISABLED`, force-disable it (modelled from the spec: `force_disable`
sets the status flag; its own activity log is skipped by the source) and both
log and return a `FORCE_DISABLE` entry; otherwise return `None`. -/
def disable_addon_process_action (a : Addon) : ProcessResult Addon :=
  if a.status ≠ STATUS_DISABLED then
    let entry : ActivityLogEntry := ⟨.FORCE_DISABLE, [], none⟩
    ⟨{ a with status := STATUS_DISABLED }, some entry, [entry]⟩
  else ⟨a, none, []⟩

/-- `CinderActionDeleteCollection.process_action`: guarded on
`target.deleted`; deletion (modelled from the spec: soft-delete flag) is
followed by logging and returning a `COLLECTION_DELETED` entry. -/
def delete_collection_process_action (c : Collection) : ProcessResult Collection :=
  if !c.deleted then
    let entry : ActivityLogEntry := ⟨.COLLECTION_DELETED, [], none⟩
    ⟨{ c with deleted := true }, some entry, [entry]⟩
  else ⟨c, none, []⟩

/-- `CinderActionDeleteRating.process_action`: guarded on `target.deleted`;
returns `None` on both paths, as in the source. -/
def delete_rating_process_action (r : Rating) : ProcessResult Rating :=
  if !r.deleted then ⟨{ r with deleted := true }, none, []⟩
  else ⟨r, none, []⟩

/-- `CinderActionTargetAppealApprove.process_action`: reverses a prior
takedown, guarded per kind on the current status (re-enable / unban /
undelete modelled from the spec); the collection branch logs a
`COLLECTION_UNDELETED` entry but the method returns `None` on every path, as
in the source. -/
def target_appeal_approve_process_action (t : Target) : ProcessResult Target :=
  match t with
  | .contentItem a =>
      if a.status = STATUS_DISABLED then
        ⟨.contentItem { a with status := STATUS_APPROVED }, none, []⟩
      else ⟨t, none, []⟩
  | .account u =>
      if u.banned then
        ⟨.account { u with banned := false, related_content_disabled := false }, none, []⟩
      else ⟨t, none, []⟩
  | .collection c =>
      if c.deleted then
        ⟨.collection { c with deleted := false }, none,
          [⟨.COLLECTION_UNDELETED, [], none⟩]⟩
      else ⟨t, none, []⟩
  | .review r =>
      if r.deleted then ⟨.review { r with deleted := false }, none, []⟩
      else ⟨t, none, []⟩

lemma status_approved_ne_disabled : STATUS_APPROVED ≠ STATUS_DISABLED := by
  decide

/-- C1: For each state-mutating variant (BanUser, DisableAddon,
DeleteCollection, DeleteRating, TargetAppealApprove), running
`process_action` a second time on the state produced by the first run leaves
the state unchanged, returns no audit entry, and writes no audit entry, so
two runs yield the same final target status as one and at most one audit
entry in total (the first run logs at most one). -/
theorem c1_process_action_idempotent :
    (∀ u : UserProfile,
      ban_user_process_action (ban_user_process_action u).target =
        ⟨(ban_user_process_action u).target, none, []⟩ ∧
      (ban_user_process_action u).logged.length ≤ 1) ∧
    (∀ a : Addon,
      disable_addon_process_action (disable_addon_process_action a).target =
        ⟨(disable_addon_process_action a).target, none, []⟩ ∧
      (disable_addon_process_action a).logged.length ≤ 1) ∧
    (∀ c : Collection,
      delete_collection_process_action (delete_collection_process_action c).target =
        ⟨(delete_collection_process_action c).target, none, []⟩ ∧
      (delete_collection_process_action c).logged.length ≤ 1) ∧
    (∀ r : Rating,
      delete_rating_process_action (delete_rating_process_action r).target =
        ⟨(delete_rating_process_action r).target, none, []⟩ ∧
      (delete_rating_process_action r).logged.length ≤ 1) ∧
    (∀ t : Target,
      target_appeal_approve_process_action
          (target_appeal_approve_process_action t).target =
        ⟨(target_appeal_approve_process_action t).target, none, []⟩ ∧
      (target_appeal_approve_process_action t).logged.length ≤ 1) := by
  refine ⟨fun u => ?_, fun a => ?_, fun c => ?_, fun r => ?_, fun t => ?_⟩
  · by_cases h : u.banned <;> simp [ban_user_process_action, h]
  · by_cases h : a.status = STATUS_DISABLED <;>
      simp [disable_addon_process_action, h]
  · by_cases h : c.deleted <;> simp [delete_collection_process_action, h]
  · by_cases h : r.deleted <;> simp [delete_rating_process_action, h]
  · cases t with
    | contentItem a =>
        by_cases h : a.status = STATUS_DISABLED <;>
          simp [target_appeal_approve_process_action, h,
            status_approved_ne_disabled]
    | account u =>
        by_cases h : u.banned <;> simp [target_appeal_approve_process_action, h]
    | collection c =>
        by_cases h : c.deleted <;> simp [target_appeal_approve_process_action, h]
    | review r =>
        by_cases h : r.deleted <;> simp [target_appeal_approve_process_action, h]

/-- The action variants of the dispatcher, one per `CinderAction` subclass in
the source. -/
inductive ActionVariant where
  | banUser
  | disableAddon
  | rejectVersion
  | rejectVersionDelayed
  | escalateAddon
  | deleteCollection
  | deleteRating
  | targetAppealApprove
  | overrideApprove
  | approveNoAction
  | approveInitialDecision
  | targetAppealRemovalAffirmation
  | notImplemented
deriving DecidableEq, Repr

/-- Each variant's `valid_targets` class attribute, read off the source
(subclasses inherit: RejectVersion(+Delayed) inherit `(Addon,)` from
DisableAddon; NotImplemented inherits the base class's empty tuple). -/
def valid_targets : ActionVariant → List TargetKind
  | .banUser => [.account]
  | .disableAddon => [.contentItem]
  | .rejectVersion => [.contentItem]
  | .rejectVersionDelayed => [.contentItem]
  | .escalateAddon => [.contentItem]
  | .deleteCollection => [.collection]
  | .deleteRating => [.review]
  | .targetAppealApprove => [.contentItem, .account, .collection, .review]
  | .overrideApprove => [.contentItem, .account, .collection, .review]
  | .approveNoAction => [.contentItem, .account, .collection, .review]
  | .approveInitialDecision => [.contentItem, .account, .collection, .review]
  | .targetAppealRemovalAffirmation => [.contentItem, .account, .collection, .review]
  | .notImplemented => []

/-- The `ContentDecision` value object handed to an action: its target, notes,
originator flag, identifiers, cited policies, the per-report named versions of
its escalation job, and (modelled from the spec, since `can_be_appealed` is a
method of the decision model outside the translated file) the owner-path
appeal eligibility. -/
structure Decision where
  target : Target
  notes : Option String
  is_third_party_initiated : Bool
  cinder_id : String
  reference_id : String
  can_be_appealed_owner : Bool
  policies : List String
  reported_versions : List (Option String)
deriving DecidableEq, Repr

/-- `ImproperlyConfigured`, the error raised by `CinderAction.__init__` on a
variant/target-kind mismatch. -/
inductive InitError where
  | improperlyConfigured
deriving DecidableEq, Repr

/-- `Addon.find_latest_version(channel=None, exclude=())`.  Modelled from the
spec: the latest version over all channels, here the version with the largest
id. -/
def Addon.find_latest_version (a : Addon) : Option Version :=
  a.versions.foldl
    (fun acc v =>
      match acc with
      | none => some v
      | some w => if w.id < v.id then some v else some w)
    none

/-- `Addon.current_version` resolved to a `Version` record. -/
def Addon.current_version (a : Addon) : Option Version :=
  match a.current_version_id with
  | some i => a.versions.find? (fun v => v.id == i)
  | none => none

/-- A constructed action object: variant, decision, target, and the
`addon_version` attribute that `__init__` computes for content-item targets
(current version, falling back to the latest version). -/
structure CinderActionObj where
  variant : ActionVariant
  decision : Decision
  target : Target
  addon_version : Option Version
deriving DecidableEq, Repr

/-- `CinderAction.__init__`: stores the decision and its target, computes
`addon_version` when the target is a content item, then validates the target
kind against the variant's `valid_targets`, raising `ImproperlyConfigured` on
a mismatch.  The constructor only reads state: it is a pure function of the
decision and performs no write to the target, so a validation failure
necessarily happens before any mutation. -/
def cinder_action_init (v : ActionVariant) (d : Decision) :
    Except InitError CinderActionObj :=
  let target := d.target
  let addon_version : Option Version :=
    match target with
    | .contentItem a =>
        match a.current_version with
        | some cv => some cv
        | none => a.find_latest_version
    | _ => none
  if (valid_targets v).contains target.kind then
    .ok ⟨v, d, target, addon_version⟩
  else
    .error .improperlyConfigured

/-- `CinderActionRejectVersion.process_action` as the source actually
resolves it: the class overrides a method named `process` (which raises), but
the entry point invoked on actions is `process_action`, which RejectVersion
inherits unchanged from `CinderActionDisableAddon`. -/
def reject_version_process_action (a : Addon) : ProcessResult Addon :=
  disable_addon_process_action a

/-- `CinderActionRejectVersionDelayed.process_action`: inherited unchanged
from `CinderActionRejectVersion`, hence from `CinderActionDisableAddon`. -/
def reject_version_delayed_process_action (a : Addon) : ProcessResult Addon :=
  reject_version_process_action a

/-- The `NotImplementedError` raised by dead-code method
`CinderActionRejectVersion.process` (a method name nothing in the action
call path invokes). -/
inductive UnsupportedError where
  | notImplementedError
deriving DecidableEq, Repr

/-- `CinderActionRejectVersion.process`: raises `NotImplementedError`
unconditionally.  This method is not the `process_action` entry point, so it
is never reached when the action is processed. -/
def reject_version_process (_a : Addon) :
    Except UnsupportedError (ProcessResult Addon) :=
  .error .notImplementedError

/-- `CinderActionNotImplemented.process_action`: `return None`, no state
change. -/
def not_implemented_process_action (t : Target) : ProcessResult Target :=
  ⟨t, none, []⟩

/-- The per-kind owner computation shared by the appeal/approve variants
(authors for a content item, the account itself, the collection author, the
rating author). -/
def owners_by_kind : Target → List UserProfile
  | .account u => [u]
  | .contentItem a => a.authors
  | .collection c => [c.author]
  | .review r => [r.user]

/-- `get_owners` per variant, read off each subclass in the source; variants
whose `get_owners` the source leaves unimplemented (never dispatched to, or
guarded by construction) yield the empty list. -/
def get_owners : ActionVariant → Target → List UserProfile
  | .banUser, .account u => [u]
  | .disableAddon, .contentItem a => a.authors
  | .rejectVersion, .contentItem a => a.authors
  | .rejectVersionDelayed, .contentItem a => a.authors
  | .escalateAddon, _ => []
  | .deleteCollection, .collection c => [c.author]
  | .deleteRating, .review r => [r.user]
  | .targetAppealApprove, t => owners_by_kind t
  | .overrideApprove, t => owners_by_kind t
  | .approveNoAction, _ => []
  | .approveInitialDecision, t => owners_by_kind t
  | .targetAppealRemovalAffirmation, t => owners_by_kind t
  | .notImplemented, _ => []
  | _, _ => []

/-- C2: for every action variant and every decision whose target kind is not
in the variant's `valid_targets`, construction fails with
`ImproperlyConfigured`.  The constructor is a pure function of the decision
(the source `__init__` only reads the target), so the failure precedes any
mutation of the target's state. -/
theorem c2_init_validates_target_kind (v : ActionVariant) (d : Decision)
    (h : (valid_targets v).contains d.target.kind = false) :
    cinder_action_init v d = .error .improperlyConfigured := by
  have h' : d.target.kind ∉ valid_targets v := by simpa using h
  simp [cinder_action_init, h']

/-- C2 witness: constructing the BanUser variant from a decision targeting a
collection fails with `ImproperlyConfigured`. -/
theorem c2_init_validates_target_kind_witness :
    (valid_targets .banUser).contains
        (Decision.mk
          (.collection ⟨"c", ⟨1, "a", "a@example.com", false, false⟩, false⟩)
          none false "cid" "rid" false [] []).target.kind = false ∧
      cinder_action_init .banUser
          (Decision.mk
            (.collection ⟨"c", ⟨1, "a", "a@example.com", false, false⟩, false⟩)
            none false "cid" "rid" false [] []) =
        .error .improperlyConfigured :=
  ⟨by decide, c2_init_validates_target_kind _ _ (by decide)⟩

instance {ε α : Type} [DecidableEq ε] [DecidableEq α] :
    DecidableEq (Except ε α) := fun x y =>
  match x, y with
  | .ok a, .ok b => decidable_of_iff (a = b) (by simp)
  | .error a, .error b => decidable_of_iff (a = b) (by simp)
  | .ok _, .error _ => isFalse (by simp)
  | .error _, .ok _ => isFalse (by simp)

/-- The failing input for the RejectVersion claim: an enabled (approved)
add-on with one version. -/
def c3_enabled_addon : Addon :=
  ⟨"addon", STATUS_APPROVED, [], [⟨1, "1.0"⟩], [1], [], some 1⟩

/-- C3: evaluating the code at the failing input.  The source's raise lives
on a method named `process`, but the entry point for actions is
`process_action`, which RejectVersion inherits from DisableAddon; so
processing a RejectVersion decision on an enabled add-on force-disables it
and returns a FORCE_DISABLE audit entry instead of failing loudly without
mutation.  The dead `process` method (last conjunct) shows the source's
stated intent to raise `NotImplementedError`. -/
theorem c3_reject_version_mutates_instead_of_raising :
    c3_enabled_addon.status ≠ STATUS_DISABLED ∧
      (reject_version_process_action c3_enabled_addon).target.status =
        STATUS_DISABLED ∧
      (reject_version_process_action c3_enabled_addon).returned =
        some ⟨.FORCE_DISABLE, [], none⟩ ∧
      (reject_version_delayed_process_action c3_enabled_addon).target.status =
        STATUS_DISABLED ∧
      reject_version_process c3_enabled_addon = .error .notImplementedError := by
  decide

/-- A decision with an account target, used to exhibit the fallback
variant's construction failure. -/
def c4_account_decision : Decision :=
  ⟨.account ⟨1, "u", "u@example.com", false, false⟩, none, false, "cid",
    "rid", false, [], []⟩

/-- C4 counterexample: the claim says constructing the Unhandled/fallback
(`CinderActionNotImplemented`) variant succeeds for every target kind; on
the code, construction from a decision targeting an account fails with
`ImproperlyConfigured`, because the class inherits the base class's empty
`valid_targets` tuple and `isinstance(x, ())` is always false. -/
theorem c4_fallback_construction_fails_counterexample :
    cinder_action_init .notImplemented c4_account_decision =
      .error .improperlyConfigured := by
  decide

/-- C4 amended: the fallback variant accepts no target kind at all —
construction fails with `ImproperlyConfigured` for every decision (its
`valid_targets` set is empty); its `process_action` method performs no state
change and returns no entry, and its `get_owners` method returns the empty
set. -/
theorem c4_fallback_accepts_no_target :
    (∀ d : Decision,
      cinder_action_init .notImplemented d = .error .improperlyConfigured) ∧
      (∀ t : Target, not_implemented_process_action t = ⟨t, none, []⟩) ∧
      (∀ t : Target, get_owners .notImplemented t = []) := by
  refine ⟨fun d => ?_, fun t => rfl, fun t => ?_⟩
  · simp [cinder_action_init, valid_targets]
  · cases t <;> rfl

/-- The waffle feature gates read by the translated code, modelled from the
spec as an injected read-only capability (waffle itself is an external
collaborator). -/
structure Gates where
  dsa_appeals_review : Bool
  dsa_cinder_escalations_review : Bool
deriving DecidableEq, Repr

/-- `settings.LANGUAGE_CODE`, the system default locale (external settings
module). -/
def LANGUAGE_CODE : String := "en-US"

/-- `settings.SITE_URL` (external settings module). -/
def SITE_URL : String := "https://addons.mozilla.org"

/-- Modelled from the spec: the URL-builder collaborator's absolute appeal
URL for the owner path (`reverse('abuse.appeal_author', ...)` absolutified). -/
def appeal_author_url (decision_cinder_id : String) : String :=
  SITE_URL ++ "/abuse/appeal_author/" ++ decision_cinder_id

/-- Modelled from the spec: the URL-builder collaborator's absolute appeal
URL for the reporter path (`reverse('abuse.appeal_reporter', ...)`
absolutified). -/
def appeal_reporter_url (abuse_report_id : Nat)
    (decision_cinder_id : String) : String :=
  SITE_URL ++ "/abuse/appeal_reporter/" ++ toString abuse_report_id ++ "/" ++
    decision_cinder_id

/-- `get_target_name`: a rating is rendered as `"{rating}" for {addon}`, all
other targets by their name attribute. -/
def get_target_name : Target → String
  | .review r => "\x22" ++ r.body ++ "\x22 for " ++ r.addon_name
  | .account u => u.name
  | .contentItem a => a.name
  | .collection c => c.name

/-- `get_target_type`: the content-item branch calls the external
`get_type_display` (modelled from the spec as a fixed type label); the other
branches are literal labels from the source. -/
def get_target_type : Target → String
  | .contentItem _ => "Extension"
  | .account _ => "User profile"
  | .collection _ => "Collection"
  | .review _ => "Rating"

/-- An abuse report: complainant contact identity (registered user or
free-text email), optional application locale, identity, and (modelled from
the spec, since `can_be_appealed` is a method of the decision model outside
the translated file) this report's reporter-path appeal eligibility,
`decision.can_be_appealed(is_reporter=True, abuse_report=this)`. -/
structure AbuseReport where
  id : Nat
  reporter : Option UserProfile
  reporter_email : Option String
  application_locale : Option String
  can_be_appealed_reporter : Bool
deriving DecidableEq, Repr

/-- The contact-address resolution of `notify_reporters`:
`abuse_report.reporter.email if abuse_report.reporter else
abuse_report.reporter_email`, followed by the falsiness check
`if not email_address: continue` (both `None` and the empty string are
falsy). -/
def resolve_email_address (r : AbuseReport) : Option String :=
  let email_address : Option String :=
    match r.reporter with
    | some u => some u.email
    | none => r.reporter_email
  match email_address with
  | some s => if s = "" then none else some s
  | none => none

/-- Each variant's `reporter_template_path` class attribute (None on the base
class; RejectVersion inherits DisableAddon's). -/
def reporter_template_path : ActionVariant → Option String
  | .banUser => some "abuse/emails/reporter_takedown_user.txt"
  | .disableAddon => some "abuse/emails/reporter_takedown_addon.txt"
  | .rejectVersion => some "abuse/emails/reporter_takedown_addon.txt"
  | .rejectVersionDelayed => some "abuse/emails/reporter_takedown_addon_delayed.txt"
  | .deleteCollection => some "abuse/emails/reporter_takedown_collection.txt"
  | .deleteRating => some "abuse/emails/reporter_takedown_rating.txt"
  | .approveNoAction => some "abuse/emails/reporter_ignore.txt"
  | .approveInitialDecision => some "abuse/emails/reporter_ignore.txt"
  | _ => none

/-- Each variant's `reporter_appeal_template_path` class attribute. -/
def reporter_appeal_template_path : ActionVariant → Option String
  | .banUser => some "abuse/emails/reporter_appeal_takedown.txt"
  | .disableAddon => some "abuse/emails/reporter_appeal_takedown.txt"
  | .rejectVersion => some "abuse/emails/reporter_appeal_takedown.txt"
  | .rejectVersionDelayed => some "abuse/emails/reporter_appeal_takedown_delayed.txt"
  | .deleteCollection => some "abuse/emails/reporter_appeal_takedown.txt"
  | .deleteRating => some "abuse/emails/reporter_appeal_takedown.txt"
  | .approveNoAction => some "abuse/emails/reporter_appeal_ignore.txt"
  | .approveInitialDecision => some "abuse/emails/reporter_appeal_ignore.txt"
  | _ => none

/-- One message dispatched to a complainant by `notify_reporters`:
recipient address, the report it answers, rendered subject, the per-report
reference id, the optional appeal URL in the message context, and the locale
the message is rendered under. -/
structure ReporterEmail where
  recipient : String
  report_id : Nat
  subject : String
  reference_id : String
  appeal_url : Option String
  locale : String
deriving DecidableEq, Repr

/-- The per-report body of the `notify_reporters` loop, after the address
has been resolved: subject and reference id carry the report id suffix, the
appeal URL is included exactly when this report's appeal eligibility holds,
and rendering runs under the report's locale override (fallback to the
system default). -/
def render_reporter_email (obj : CinderActionObj) (r : AbuseReport)
    (email_address : String) : ReporterEmail :=
  let target_name := get_target_name obj.target
  let reference_id :=
    "ref:" ++ obj.decision.reference_id ++ "/" ++ toString r.id
  { recipient := email_address
    report_id := r.id
    subject := "Mozilla Add-ons: " ++ target_name ++ " [" ++ reference_id ++ "]"
    reference_id := reference_id
    appeal_url :=
      if r.can_be_appealed_reporter then
        some (appeal_reporter_url r.id obj.decision.cinder_id)
      else none
    locale := r.application_locale.getD LANGUAGE_CODE }

/-- `CinderAction.notify_reporters`: select the normal or appeal reporter
template; no-op if the variant has none or no reports were supplied; then,
independently per report, resolve the contact address (skipping the report
silently when none resolves) and send one directly-mailed message. -/
def notify_reporters (obj : CinderActionObj)
    (reporter_abuse_reports : List AbuseReport) (is_appeal : Bool) :
    List ReporterEmail :=
  let template :=
    if !is_appeal then reporter_template_path obj.variant
    else reporter_appeal_template_path obj.variant
  match template with
  | none => []
  | some _ =>
      if reporter_abuse_reports.isEmpty then []
      else
        reporter_abuse_reports.filterMap fun r =>
          (resolve_email_address r).map (render_reporter_email obj r)

/-- The single owner notification assembled by `notify_owners`: one subject
and message context for all owners, the optional appeal URL, and the
dispatch channel (activity mail threading when an `addon_version` exists,
plain mail otherwise). -/
structure OwnerEmail where
  subject : String
  recipients : List UserProfile
  reference_id : String
  appeal_url : Option String
  policies : Option (List String)
  manual_policy_text : Option String
  via_activity_mail : Bool
  dedup_token : Option Nat
deriving DecidableEq, Repr

/-- `CinderAction.notify_owners`: no-op when `get_owners()` is empty;
otherwise build one message context for the whole notification — including
the appeal URL exactly when `can_be_appealed(is_reporter=False)` holds and
the decision is third-party initiated or the `dsa-appeals-review` gate is on
— and dispatch one message to all owners (via the version-scoped activity
channel when an add-on version exists, with the log-entry id as dedup token,
else direct mail).  The source's `extra_context` merge happens before the
policy/appeal fields are set and cannot affect the fields modelled here; the
random fallback dedup token is left abstract as the absent option. -/
def notify_owners (obj : CinderActionObj) (g : Gates)
    (log_entry_id : Option Nat) (policy_text : Option String) :
    Option OwnerEmail :=
  let owners := get_owners obj.variant obj.target
  if owners.isEmpty then none
  else
    let target_name := get_target_name obj.target
    let reference_id := "ref:" ++ obj.decision.reference_id
    let appeal_url : Option String :=
      if obj.decision.can_be_appealed_owner &&
          (obj.decision.is_third_party_initiated || g.dsa_appeals_review) then
        some (appeal_author_url obj.decision.cinder_id)
      else none
    some
      { subject :=
          "Mozilla Add-ons: " ++ target_name ++ " [" ++ reference_id ++ "]"
        recipients := owners
        reference_id := reference_id
        appeal_url := appeal_url
        policies :=
          if policy_text.isSome then none else some obj.decision.policies
        manual_policy_text := policy_text
        via_activity_mail := obj.addon_version.isSome
        dedup_token := log_entry_id }

/-- C6: in `notify_owners`, the rendered owner message context contains an
appeal URL if and only if the decision can be appealed by the owner
(`can_be_appealed(is_reporter=False)`) and the decision is third-party
initiated or the `dsa-appeals-review` gate is on; the whole notification is
one message whose recipient list is the owner set, so the condition is
evaluated once per notification, not per recipient. -/
theorem c6_owner_appeal_url_gating (obj : CinderActionObj) (g : Gates)
    (lid : Option Nat) (pt : Option String) (em : OwnerEmail)
    (h : notify_owners obj g lid pt = some em) :
    em.appeal_url.isSome =
        (obj.decision.can_be_appealed_owner &&
          (obj.decision.is_third_party_initiated || g.dsa_appeals_review)) ∧
      em.recipients = get_owners obj.variant obj.target := by
  unfold notify_owners at h
  by_cases ho : (get_owners obj.variant obj.target).isEmpty
  · simp [ho] at h
  · simp only [ho, Bool.false_eq_true, if_false, Option.some.injEq] at h
    subst h
    refine ⟨?_, rfl⟩
    by_cases hc :
        (obj.decision.can_be_appealed_owner &&
          (obj.decision.is_third_party_initiated || g.dsa_appeals_review)) <;>
      simp [hc]

/-- Concrete owner-notification scenario: a BanUser action on an account,
owner-appealable, third-party initiated, appeals gate off. -/
def c6_obj : CinderActionObj :=
  ⟨.banUser,
    ⟨.account ⟨7, "owner", "owner@example.com", false, false⟩, none, true,
      "cid6", "rid6", true, [], []⟩,
    .account ⟨7, "owner", "owner@example.com", false, false⟩, none⟩

def c6_gates : Gates := ⟨false, false⟩

/-- The owner email `notify_owners` assembles for `c6_obj`. -/
def c6_email : OwnerEmail :=
  { subject := "Mozilla Add-ons: owner [ref:rid6]"
    recipients := [⟨7, "owner", "owner@example.com", false, false⟩]
    reference_id := "ref:rid6"
    appeal_url := some (appeal_author_url "cid6")
    policies := some []
    manual_policy_text := none
    via_activity_mail := false
    dedup_token := none }

/-- C6 witness: the gating theorem applied to the concrete scenario. -/
theorem c6_owner_appeal_url_gating_witness :
    c6_email.appeal_url.isSome =
        (c6_obj.decision.can_be_appealed_owner &&
          (c6_obj.decision.is_third_party_initiated ||
            c6_gates.dsa_appeals_review)) ∧
      c6_email.recipients = get_owners c6_obj.variant c6_obj.target :=
  c6_owner_appeal_url_gating c6_obj c6_gates none none c6_email (by decide)

/-- Concrete reporter-notification scenario for the per-report appeal URL
rule: two reports, one appealable and one not. -/
def c7_obj : CinderActionObj :=
  ⟨.banUser,
    ⟨.account ⟨7, "owner", "owner@example.com", false, false⟩, none, true,
      "cid7", "rid7", false, [], []⟩,
    .account ⟨7, "owner", "owner@example.com", false, false⟩, none⟩

def c7_r1 : AbuseReport := ⟨1, none, some "rep1@example.com", none, true⟩

def c7_r2 : AbuseReport := ⟨2, none, some "rep2@example.com", none, false⟩

/-- The first message of the concrete scenario, as rendered for `c7_r1`. -/
def c7_mail1 : ReporterEmail :=
  render_reporter_email c7_obj c7_r1 "rep1@example.com"

/-- C7: in `notify_reporters`, every dispatched message belongs to one of
the supplied reports and contains an appeal URL if and only if
`can_be_appealed(is_reporter=True, abuse_report=that report)` holds for that
specific report; the closed conjunct shows one call producing both a message
with the link and a message without it. -/
theorem c7_reporter_appeal_url_per_report :
    (∀ (obj : CinderActionObj) (reports : List AbuseReport) (ia : Bool),
      ∀ m ∈ notify_reporters obj reports ia, ∃ r ∈ reports,
        m.report_id = r.id ∧
          m.appeal_url.isSome = r.can_be_appealed_reporter) ∧
      (notify_reporters c7_obj [c7_r1, c7_r2] false).map
          (fun m => m.appeal_url.isSome) =
        [true, false] := by
  constructor
  · intro obj reports ia m hm
    unfold notify_reporters at hm
    cases htemp :
        (if !ia then reporter_template_path obj.variant
          else reporter_appeal_template_path obj.variant) with
    | none => rw [htemp] at hm; simp at hm
    | some tmpl =>
        rw [htemp] at hm
        by_cases he : reports.isEmpty
        · simp [he] at hm
        · simp only [he, Bool.false_eq_true, if_false,
            List.mem_filterMap] at hm
          obtain ⟨r, hr, hf⟩ := hm
          refine ⟨r, hr, ?_⟩
          cases hres : resolve_email_address r with
          | none => rw [hres] at hf; simp at hf
          | some addr =>
              rw [hres] at hf
              simp only [Option.map_some', Option.some.injEq] at hf
              subst hf
              refine ⟨rfl, ?_⟩
              by_cases hc : r.can_be_appealed_reporter <;>
                simp [render_reporter_email, hc]
  · decide

/-- C7 witness: the per-report rule applied to the first message of the
concrete two-report call. -/
theorem c7_reporter_appeal_url_per_report_witness :
    ∃ r ∈ [c7_r1, c7_r2], c7_mail1.report_id = r.id ∧
      c7_mail1.appeal_url.isSome = r.can_be_appealed_reporter :=
  c7_reporter_appeal_url_per_report.1 c7_obj [c7_r1, c7_r2] false c7_mail1
    (by decide)

lemma length_filterMap_resolve (obj : CinderActionObj)
    (l : List AbuseReport) :
    (l.filterMap fun r =>
        (resolve_email_address r).map (render_reporter_email obj r)).length =
      (l.filter fun r => (resolve_email_address r).isSome).length := by
  induction l with
  | nil => rfl
  | cons r t ih =>
      cases hf : resolve_email_address r <;>
        simp [List.filterMap_cons, List.filter_cons, hf, ih]

/-- Concrete skip-rule scenario: two reports, the first with a registered
reporter whose stored address resolves, the second with no address at all. -/
def c8_obj : CinderActionObj :=
  ⟨.banUser,
    ⟨.account ⟨7, "owner", "owner@example.com", false, false⟩, none, true,
      "cid8", "rid8", false, [], []⟩,
    .account ⟨7, "owner", "owner@example.com", false, false⟩, none⟩

def c8_r1 : AbuseReport :=
  ⟨1, some ⟨21, "rep", "rep@example.com", false, false⟩, none, none, false⟩

def c8_r2 : AbuseReport := ⟨2, none, none, none, false⟩

/-- C8: `notify_reporters` resolves each report's address with the
registered user's stored address taking priority over the free-text one,
silently skips any report with no resolvable address, and sends to the
remaining reports — whenever a reporter template is configured, the number
of messages equals the number of reports whose address resolves (a total
function: no error is raised and the rest of the batch proceeds).  The
closed conjunct: of two reports of which one has no resolvable address,
exactly one message is sent, to the resolvable one's address. -/
theorem c8_unresolvable_reports_skipped :
    (∀ (obj : CinderActionObj) (reports : List AbuseReport) (ia : Bool)
        (tmpl : String),
      (if !ia then reporter_template_path obj.variant
        else reporter_appeal_template_path obj.variant) = some tmpl →
      (notify_reporters obj reports ia).length =
        (reports.filter fun r => (resolve_email_address r).isSome).length) ∧
      (∀ (r : AbuseReport) (u : UserProfile),
        r.reporter = some u → u.email ≠ "" →
        resolve_email_address r = some u.email) ∧
      ((notify_reporters c8_obj [c8_r1, c8_r2] false).length = 1 ∧
        (notify_reporters c8_obj [c8_r1, c8_r2] false).map
            (fun m => m.recipient) =
          ["rep@example.com"]) := by
  refine ⟨?_, ?_, by decide⟩
  · intro obj reports ia tmpl ht
    unfold notify_reporters
    rw [ht]
    cases reports with
    | nil => simp
    | cons a t =>
        simp only [List.isEmpty_cons, Bool.false_eq_true, if_false]
        exact length_filterMap_resolve obj (a :: t)
  · intro r u hr hu
    simp [resolve_email_address, hr, hu]

/-- C8 witness: the two general conjuncts applied at the concrete scenario
(the BanUser reporter template is configured; the first report's registered
address resolves). -/
theorem c8_unresolvable_reports_skipped_witness :
    (notify_reporters c8_obj [c8_r1, c8_r2] false).length =
        ([c8_r1, c8_r2].filter fun r =>
          (resolve_email_address r).isSome).length ∧
      resolve_email_address c8_r1 = some "rep@example.com" :=
  ⟨c8_unresolvable_reports_skipped.1 c8_obj [c8_r1, c8_r2] false
      "abuse/emails/reporter_takedown_user.txt" (by decide),
    c8_unresolvable_reports_skipped.2.1 c8_r1
      ⟨21, "rep", "rep@example.com", false, false⟩ rfl (by decide)⟩

/-- Concrete scenario for the registered-reporter priority rule: a report
whose registered reporter has an empty stored address but which carries a
non-empty free-text address. -/
def c10_obj : CinderActionObj :=
  ⟨.banUser,
    ⟨.account ⟨7, "owner", "owner@example.com", false, false⟩, none, true,
      "cid10", "rid10", false, [], []⟩,
    .account ⟨7, "owner", "owner@example.com", false, false⟩, none⟩

def c10_report : AbuseReport :=
  ⟨3, some ⟨9, "emptymail", "", false, false⟩, some "free@example.com", none,
    true⟩

/-- C10: when a report carries a registered reporter, only that user's
stored address is consulted — if it is empty the report is skipped (its
notification list is empty) regardless of the free-text address; the
free-text address is consulted only when there is no registered reporter at
all. -/
theorem c10_registered_reporter_address_only :
    (∀ (r : AbuseReport) (u : UserProfile),
      r.reporter = some u → u.email = "" → resolve_email_address r = none) ∧
      (∀ (obj : CinderActionObj) (r : AbuseReport) (u : UserProfile)
          (ia : Bool),
        r.reporter = some u → u.email = "" →
        notify_reporters obj [r] ia = []) ∧
      (∀ r : AbuseReport, r.reporter = none →
        resolve_email_address r =
          match r.reporter_email with
          | some s => if s = "" then none else some s
          | none => none) := by
  have h1 : ∀ (r : AbuseReport) (u : UserProfile),
      r.reporter = some u → u.email = "" → resolve_email_address r = none := by
    intro r u hr hu
    simp [resolve_email_address, hr, hu]
  refine ⟨h1, ?_, ?_⟩
  · intro obj r u ia hr hu
    unfold notify_reporters
    cases htemp :
        (if !ia then reporter_template_path obj.variant
          else reporter_appeal_template_path obj.variant) with
    | none => rfl
    | some tmpl => simp [List.filterMap_cons, h1 r u hr hu]
  · intro r hr
    cases hre : r.reporter_email <;> simp [resolve_email_address, hr, hre]

/-- C10 witness: the rule applied to the concrete report — skipped despite
its non-empty free-text address, because its registered reporter's stored
address is empty. -/
theorem c10_registered_reporter_address_only_witness :
    resolve_email_address c10_report = none ∧
      notify_reporters c10_obj [c10_report] false = [] :=
  ⟨c10_registered_reporter_address_only.1 c10_report
      ⟨9, "emptymail", "", false, false⟩ rfl rfl,
    c10_registered_reporter_address_only.2.1 c10_obj c10_report
      ⟨9, "emptymail", "", false, false⟩ false rfl rfl⟩

/-- Whether the add-on has an active human-review flag row for the given
version and reason (the `needshumanreview__reason=..., is_active=True`
relation the flagger's exclude clause and the uniqueness rule consult). -/
def addon_has_active_flag (a : Addon) (vid reason : Nat) : Bool :=
  a.nhr_flags.any fun f =>
    f.version_id == vid && f.reason == reason && f.is_active

/-- Creating one active `NeedsHumanReview` row per selected version (the
flagger's per-version save loop). -/
def add_flags (a : Addon) (vs : List Version) (reason : Nat) : Addon :=
  { a with nhr_flags := a.nhr_flags ++ vs.map fun v => ⟨v.id, reason, true⟩ }

/-- The flagger's selection of versions to flag from the reports: the
decision's named versions (a Python set: duplicates collapse; a null entry
matches no version), intersected with the add-on's full version set,
excluding versions that already carry an active flag of this reason; the
empty set when no versions were named. -/
def escalation_version_objs (d : Decision) (a : Addon) (reason : Nat) :
    List Version :=
  let reported_versions := d.reported_versions.dedup
  if reported_versions.isEmpty then []
  else
    a.versions.filter fun v =>
      reported_versions.contains (some v.version) &&
        !(addon_has_active_flag a v.id reason)

/-- The source's fallback guard:
`len(version_objs) != len(reported_versions) or len(reported_versions) == 0`. -/
def escalation_fallback_condition (d : Decision) (a : Addon) (reason : Nat) :
    Bool :=
  (escalation_version_objs d a reason).length !=
      d.reported_versions.dedup.length ||
    d.reported_versions.dedup.length == 0

/-- Modelled from the spec:
`set_needs_human_review_on_latest_versions(reason=..., ignore_reviewed=False,
unique_reason=True, skip_activity_log=True)` (a method of the add-on model
outside the translated file) flags the target's current latest version(s),
ignoring review state, skipping versions that already carry an active flag
of this reason (uniqueness), and returns the newly flagged versions. -/
def set_needs_human_review_on_latest_versions (a : Addon) (reason : Nat) :
    Addon × List Version :=
  let to_flag := a.versions.filter fun v =>
    a.latest_version_ids.contains v.id &&
      !(addon_has_active_flag a v.id reason)
  (add_flags a to_flag reason, to_flag)

def insert_sorted (n : Nat) : List Nat → List Nat
  | [] => [n]
  | m :: ms => if n ≤ m then n :: m :: ms else m :: insert_sorted n ms

/-- `sorted(..., key=lambda v: v.id)` on the flagged versions' ids. -/
def sort_ids (l : List Nat) : List Nat := l.foldr insert_sorted []

/-- The add-on state after the flagger's active branch: match-selected
versions flagged first, then — when the fallback guard fires — the latest
version(s) flagged by the helper (which sees the state left by the first
loop). -/
def escalation_addon_after (d : Decision) (a : Addon) : Addon :=
  let reason := REASON_CINDER_ESCALATION
  let a1 := add_flags a (escalation_version_objs d a reason) reason
  if escalation_fallback_condition d a reason then
    (set_needs_human_review_on_latest_versions a1 reason).1
  else a1

/-- The versions flagged by the fallback path (empty when the guard does not
fire). -/
def escalation_fallback_flagged (d : Decision) (a : Addon) : List Version :=
  let reason := REASON_CINDER_ESCALATION
  let a1 := add_flags a (escalation_version_objs d a reason) reason
  if escalation_fallback_condition d a reason then
    (set_needs_human_review_on_latest_versions a1 reason).2
  else []

/-- Result of one run of the escalation flagger: the updated add-on, the
audit entries recorded, the versions flagged by each path, whether the
fallback guard fired, and the value the function returns to its caller. -/
structure EscalationOutcome where
  addon : Addon
  logged : List ActivityLogEntry
  just_flagged : List Version
  fallback_ran : Bool
  fallback_flagged : List Version
  returned : Option ActivityLogEntry
deriving DecidableEq, Repr

/-- The body of `flag_for_human_review` once the gate and originator checks
have passed: select and flag the reported versions, run the fallback when
the counts disagree or nothing was named, and, if any versions were flagged
by either path, record one combined audit entry over all of them (ids
ascending, annotated with the reason's display text).  Every return path of
the source function returns `None`. -/
def flag_for_human_review_active (d : Decision) (a : Addon) :
    EscalationOutcome :=
  let reason := REASON_CINDER_ESCALATION
  let version_objs := escalation_version_objs d a reason
  let all_objs := version_objs ++ escalation_fallback_flagged d a
  { addon := escalation_addon_after d a
    logged :=
      if all_objs.isEmpty then []
      else
        [⟨.NEEDS_HUMAN_REVIEW_CINDER, sort_ids (all_objs.map Version.id),
          some REASON_CINDER_ESCALATION_DISPLAY⟩]
    just_flagged := version_objs
    fallback_ran := escalation_fallback_condition d a reason
    fallback_flagged := escalation_fallback_flagged d a
    returned := none }

/-- `CinderActionEscalateAddon.flag_for_human_review`: a no-op (beyond a log
line) when the `dsa-cinder-escalations-review` gate is off or the decision
is not third-party initiated; otherwise the active branch above. -/
def flag_for_human_review (d : Decision) (a : Addon) (g : Gates) :
    EscalationOutcome :=
  if !g.dsa_cinder_escalations_review then ⟨a, [], [], false, [], none⟩
  else if d.is_third_party_initiated then flag_for_human_review_active d a
  else ⟨a, [], [], false, [], none⟩

/-- `CinderActionEscalateAddon.process_action`: returns the value of
`flag_for_human_review` (which is `None` on every path). -/
def escalate_addon_process_action (d : Decision) (a : Addon) (g : Gates) :
    EscalationOutcome :=
  flag_for_human_review d a g

lemma any_map_across {α β : Type} (f : α → β) (l : List α) (p : β → Bool) :
    (l.map f).any p = l.any fun x => p (f x) := by
  induction l with
  | nil => rfl
  | cons a t ih => simp [List.map_cons, List.any_cons, ih]

lemma addon_has_active_flag_add_flags (a : Addon) (vs : List Version)
    (reason vid : Nat) :
    addon_has_active_flag (add_flags a vs reason) vid reason =
      (addon_has_active_flag a vid reason ||
        vs.any fun v => v.id == vid) := by
  unfold addon_has_active_flag add_flags
  simp [List.any_append, any_map_across]

lemma escalation_fallback_condition_iff (d : Decision) (a : Addon)
    (reason : Nat) :
    escalation_fallback_condition d a reason = true ↔
      ((escalation_version_objs d a reason).length ≠
          d.reported_versions.dedup.length ∨
        d.reported_versions = []) := by
  unfold escalation_fallback_condition
  simp [List.length_eq_zero, List.dedup_eq_nil]

lemma escalation_latest_flagged (d : Decision) (a : Addon)
    (hfb : escalation_fallback_condition d a REASON_CINDER_ESCALATION = true) :
    ∀ v ∈ a.versions, a.latest_version_ids.contains v.id = true →
      addon_has_active_flag (escalation_addon_after d a) v.id
        REASON_CINDER_ESCALATION = true := by
  intro v hv hl
  unfold escalation_addon_after
  simp only [hfb, if_true]
  unfold set_needs_human_review_on_latest_versions
  rw [addon_has_active_flag_add_flags]
  by_cases hflag :
      addon_has_active_flag
        (add_flags a (escalation_version_objs d a REASON_CINDER_ESCALATION)
          REASON_CINDER_ESCALATION)
        v.id REASON_CINDER_ESCALATION = true
  · simp [hflag]
  · have hmem : v ∈ (add_flags a
        (escalation_version_objs d a REASON_CINDER_ESCALATION)
        REASON_CINDER_ESCALATION).versions := hv
    simp only [Bool.or_eq_true, List.any_eq_true]
    refine Or.inr ⟨v, List.mem_filter.mpr ⟨hmem, ?_⟩, by simp⟩
    simp only [Bool.and_eq_true, Bool.not_eq_true']
    exact ⟨hl, by simpa using hflag⟩

/-- Concrete escalation scenarios: gate on; an add-on with three versions of
which the third is latest; a decision naming three versions of which only
"1.0" matches an existing un-flagged version, and a decision naming none. -/
def c5_gates : Gates := ⟨false, true⟩

def c5_addon : Addon :=
  ⟨"addon5", STATUS_APPROVED, [], [⟨1, "1.0"⟩, ⟨2, "2.0"⟩, ⟨3, "3.0"⟩], [3],
    [], some 3⟩

def c5_three_named : Decision :=
  ⟨.contentItem c5_addon, none, true, "cid5", "rid5", false, [],
    [some "1.0", some "7.7", some "8.8"]⟩

def c5_none_named : Decision :=
  ⟨.contentItem c5_addon, none, true, "cid5b", "rid5b", false, [], []⟩

/-- C5: with the gate enabled and a third-party-initiated decision, the
flagger's fallback fires exactly when the just-flagged count differs from
the named-version count or no versions were named; when it fires, every
current latest version of the add-on carries an active escalation flag
afterwards.  Concretely: with 3 named versions of which only one matches an
existing un-flagged version, exactly that version is match-flagged
(`just_flagged = [version 1]`), the fallback fires and flags the latest
version, and one combined audit entry covers ids [1, 3]; with 0 named
versions only the fallback path runs. -/
theorem c5_escalation_fallback_rule (d : Decision) (a : Addon) (g : Gates)
    (hg : g.dsa_cinder_escalations_review = true)
    (ht : d.is_third_party_initiated = true) :
    ((flag_for_human_review d a g).fallback_ran = true ↔
      ((flag_for_human_review d a g).just_flagged.length ≠
          d.reported_versions.dedup.length ∨
        d.reported_versions = [])) ∧
      ((flag_for_human_review d a g).fallback_ran = true →
        ∀ v ∈ a.versions, a.latest_version_ids.contains v.id = true →
          addon_has_active_flag (flag_for_human_review d a g).addon v.id
            REASON_CINDER_ESCALATION = true) ∧
      ((flag_for_human_review c5_three_named c5_addon c5_gates).just_flagged =
          [⟨1, "1.0"⟩] ∧
        (flag_for_human_review c5_three_named c5_addon c5_gates).fallback_ran =
          true ∧
        addon_has_active_flag
            (flag_for_human_review c5_three_named c5_addon c5_gates).addon 1
            REASON_CINDER_ESCALATION = true ∧
        (flag_for_human_review c5_three_named c5_addon
              c5_gates).fallback_flagged =
          [⟨3, "3.0"⟩] ∧
        (flag_for_human_review c5_three_named c5_addon c5_gates).logged =
          [⟨.NEEDS_HUMAN_REVIEW_CINDER, [1, 3],
            some REASON_CINDER_ESCALATION_DISPLAY⟩]) ∧
      ((flag_for_human_review c5_none_named c5_addon c5_gates).just_flagged =
          [] ∧
        (flag_for_human_review c5_none_named c5_addon c5_gates).fallback_ran =
          true ∧
        (flag_for_human_review c5_none_named c5_addon
              c5_gates).fallback_flagged =
          [⟨3, "3.0"⟩]) := by
  have he : flag_for_human_review d a g = flag_for_human_review_active d a := by
    unfold flag_for_human_review
    simp [hg, ht]
  refine ⟨?_, ?_, by decide, by decide⟩
  · rw [he]
    exact escalation_fallback_condition_iff d a REASON_CINDER_ESCALATION
  · rw [he]
    intro hfb v hv hl
    exact escalation_latest_flagged d a hfb v hv hl

/-- C5 witness: the fallback characterization applied to the concrete
three-named-versions scenario (gate on, third-party initiated). -/
theorem c5_escalation_fallback_rule_witness :
    (flag_for_human_review c5_three_named c5_addon c5_gates).fallback_ran =
        true ↔
      ((flag_for_human_review c5_three_named c5_addon
              c5_gates).just_flagged.length ≠
          c5_three_named.reported_versions.dedup.length ∨
        c5_three_named.reported_versions = []) :=
  (c5_escalation_fallback_rule c5_three_named c5_addon c5_gates rfl rfl).1

/-- A concrete run in which the escalation path records an audit entry. -/
def c9_gates : Gates := ⟨false, true⟩

def c9_addon : Addon :=
  ⟨"addon9", STATUS_APPROVED, [], [⟨1, "1.0"⟩], [1], [], some 1⟩

def c9_decision : Decision :=
  ⟨.contentItem c9_addon, none, true, "cid9", "rid9", false, [],
    [some "1.0"]⟩

/-- C9: the Escalate variant's `process_action` returns the value of
`flag_for_human_review`, and every return path of that function yields
`None` — even in runs whose flagger creates flags and records a combined
audit entry (the concrete run logs a non-empty entry list yet returns
nothing). -/
theorem c9_escalate_process_returns_none :
    (∀ (d : Decision) (a : Addon) (g : Gates),
      (escalate_addon_process_action d a g).returned = none) ∧
      (escalate_addon_process_action c9_decision c9_addon c9_gates).logged ≠
        [] ∧
      (escalate_addon_process_action c9_decision c9_addon c9_gates).returned =
        none := by
  refine ⟨?_, by decide, by decide⟩
  intro d a g
  unfold escalate_addon_process_action flag_for_human_review
  by_cases h1 : g.dsa_cinder_escalations_review <;>
    by_cases h2 : d.is_third_party_initiated <;>
      simp [h1, h2, flag_for_human_review_active]
